import Mathlib

/-!
Shallow embedding of the dataset persistence and synchronization layer of
the market-indicators repository (src/subsets_utils/io.py, src/main.py).

Python dicts/JSON documents are modelled by an ordered `Json` inductive,
the state store / raw object cache / Delta-table store by association
lists keyed by the resolved storage key, and the external collaborators
(the object-store put/get from r2.py, the directory layout from
environment.py, the deltalake engine) by explicit Lean functions whose
doc comments say what they model.
-/

namespace MarketIndicators

set_option maxRecDepth 16000
set_option linter.unusedVariables false

/-- JSON values as produced by Python's json module; objects keep
insertion order, as Python dicts do. -/
inductive Json where
  | null : Json
  | bool (b : Bool) : Json
  | num (n : Int) : Json
  | str (s : String) : Json
  | arr (xs : List Json) : Json
  | obj (fields : List (String × Json)) : Json

/-- Python `d.get(k)` on a JSON object: first binding wins; `none` on
non-objects and missing keys. -/
def Json.get : Json → String → Option Json
  | .obj fields, k => fields.lookup k
  | _, _ => none

/-- Python `d.get(k)` when the caller expects a string value (as
`state.get("hash")` does): a missing key or a non-string value both
compare unequal to any string, so they are collapsed to `none`. -/
def Json.getStr : Json → String → Option String
  | .obj fields, k =>
      match fields.lookup k with
      | some (Json.str s) => some s
      | _ => none
  | _, _ => none

/-- Python dict update `{**d, k: v}` / store put: replace the first
binding of `k` in place, or append it at the end. -/
def putKey {α : Type} : List (String × α) → String → α → List (String × α)
  | [], k, v => [(k, v)]
  | (k0, v0) :: rest, k, v =>
      if k0 = k then (k, v) :: rest else (k0, v0) :: putKey rest k v

/-! UTF-8 codec.  `save_raw_file` writes `content.encode('utf-8')` for
text, and `load_raw_file` does `data.decode('utf-8')` falling back to the
raw bytes on `UnicodeDecodeError`.  Python's strict decoder is modelled
byte-for-byte: stray continuation bytes, truncated sequences, overlong
encodings, surrogates and values above 0x10FFFF are rejected. -/

/-- UTF-8 encoding of a single character (Python `chr.encode('utf-8')`). -/
def utf8EncodeChar (c : Char) : List Nat :=
  let n := c.toNat
  if n < 0x80 then [n]
  else if n < 0x800 then [0xC0 + n / 64, 0x80 + n % 64]
  else if n < 0x10000 then [0xE0 + n / 4096, 0x80 + n / 64 % 64, 0x80 + n % 64]
  else [0xF0 + n / 262144, 0x80 + n / 4096 % 64, 0x80 + n / 64 % 64, 0x80 + n % 64]

/-- Python `s.encode('utf-8')` as a byte list. -/
def utf8Encode (s : String) : List Nat :=
  s.data.flatMap utf8EncodeChar

/-- Continuation byte test: `0x80 ≤ b < 0xC0`. -/
def utf8Cont (b : Nat) : Bool :=
  decide (0x80 ≤ b) && decide (b < 0xC0)

/-- Tail of a two-byte UTF-8 sequence with lead byte `b`. -/
def utf8Dec2 (b : Nat) : List Nat → Option (Nat × List Nat)
  | b1 :: rest =>
      if utf8Cont b1 then
        if (b - 0xC0) * 64 + (b1 - 0x80) < 0x80 then none
        else some ((b - 0xC0) * 64 + (b1 - 0x80), rest)
      else none
  | [] => none

/-- Tail of a three-byte UTF-8 sequence with lead byte `b`. -/
def utf8Dec3 (b : Nat) : List Nat → Option (Nat × List Nat)
  | b1 :: b2 :: rest =>
      if utf8Cont b1 && utf8Cont b2 then
        if (b - 0xE0) * 4096 + (b1 - 0x80) * 64 + (b2 - 0x80) < 0x800 then none
        else if 0xD800 ≤ (b - 0xE0) * 4096 + (b1 - 0x80) * 64 + (b2 - 0x80) ∧
            (b - 0xE0) * 4096 + (b1 - 0x80) * 64 + (b2 - 0x80) < 0xE000 then none
        else some ((b - 0xE0) * 4096 + (b1 - 0x80) * 64 + (b2 - 0x80), rest)
      else none
  | _ => none

/-- Tail of a four-byte UTF-8 sequence with lead byte `b`. -/
def utf8Dec4 (b : Nat) : List Nat → Option (Nat × List Nat)
  | b1 :: b2 :: b3 :: rest =>
      if utf8Cont b1 && utf8Cont b2 && utf8Cont b3 then
        if (b - 0xF0) * 262144 + (b1 - 0x80) * 4096 + (b2 - 0x80) * 64 + (b3 - 0x80)
            < 0x10000 then none
        else if (b - 0xF0) * 262144 + (b1 - 0x80) * 4096 + (b2 - 0x80) * 64 + (b3 - 0x80)
            < 0x110000 then
          some ((b - 0xF0) * 262144 + (b1 - 0x80) * 4096 + (b2 - 0x80) * 64 + (b3 - 0x80), rest)
        else none
      else none
  | _ => none

/-- Decode one code point from the front of a byte list; `none` on any
malformed sequence (stray continuation, truncation, overlong encoding,
surrogate, value above 0x10FFFF), exactly the cases Python's strict
decoder raises `UnicodeDecodeError` for. -/
def utf8DecodeOne : List Nat → Option (Nat × List Nat)
  | [] => none
  | b :: rest =>
      if b < 0x80 then some (b, rest)
      else if b < 0xC0 then none
      else if b < 0xE0 then utf8Dec2 b rest
      else if b < 0xF0 then utf8Dec3 b rest
      else utf8Dec4 b rest

/-- Fuelled decoding loop (one unit of fuel per decoded code point; each
code point consumes at least one byte, so `l.length` fuel suffices). -/
def utf8DecodeAux : Nat → List Nat → Option (List Nat)
  | _, [] => some []
  | 0, _ :: _ => none
  | fuel + 1, b :: rest =>
      match utf8DecodeOne (b :: rest) with
      | none => none
      | some (c, rest2) => (utf8DecodeAux fuel rest2).map (fun cs => c :: cs)

/-- Strict UTF-8 decoder returning code points (Python
`bytes.decode('utf-8')`, which raises `UnicodeDecodeError` on any
malformed input — modelled by `none`). -/
def utf8DecodeCps (l : List Nat) : Option (List Nat) :=
  utf8DecodeAux l.length l

/-- Python `bytes.decode('utf-8')` to a string, `none` on decode error. -/
def utf8DecodeStr (l : List Nat) : Option String :=
  (utf8DecodeCps l).map (fun cs => String.mk (cs.map Char.ofNat))

/-! SHA-256.  `_compute_table_hash` calls `hashlib.sha256` (Python
standard library, an external collaborator); it is modelled here as the
full FIPS 180-4 algorithm over byte lists, 32-bit words represented as
`Nat` reduced mod 2^32. -/

/-- Reduce to a 32-bit word. -/
def w32 (x : Nat) : Nat := x % 4294967296

/-- Rotate a 32-bit word right by `n`. -/
def rotr32 (n x : Nat) : Nat := w32 ((x >>> n) ||| (x <<< (32 - n)))

def bigSigma0 (x : Nat) : Nat := rotr32 2 x ^^^ rotr32 13 x ^^^ rotr32 22 x

def bigSigma1 (x : Nat) : Nat := rotr32 6 x ^^^ rotr32 11 x ^^^ rotr32 25 x

def smallSigma0 (x : Nat) : Nat := rotr32 7 x ^^^ rotr32 18 x ^^^ (x >>> 3)

def smallSigma1 (x : Nat) : Nat := rotr32 17 x ^^^ rotr32 19 x ^^^ (x >>> 10)

/-- The 64 SHA-256 round constants (FIPS 180-4, in decimal), in
eight groups of eight. -/
def sha256K : List Nat :=
  [1116352408, 1899447441, 3049323471, 3921009573, 961987163, 1508970993, 2453635748, 2870763221] ++
  [3624381080, 310598401, 607225278, 1426881987, 1925078388, 2162078206, 2614888103, 3248222580] ++
  [3835390401, 4022224774, 264347078, 604807628, 770255983, 1249150122, 1555081692, 1996064986] ++
  [2554220882, 2821834349, 2952996808, 3210313671, 3336571891, 3584528711, 113926993, 338241895] ++
  [666307205, 773529912, 1294757372, 1396182291, 1695183700, 1986661051, 2177026350, 2456956037] ++
  [2730485921, 2820302411, 3259730800, 3345764771, 3516065817, 3600352804, 4094571909, 275423344] ++
  [430227734, 506948616, 659060556, 883997877, 958139571, 1322822218, 1537002063, 1747873779] ++
  [1955562222, 2024104815, 2227730452, 2361852424, 2428436474, 2756734187, 3204031479, 3329325298]

/-- The eight 32-bit working variables of the compression function. -/
structure Sha256State where
  a : Nat
  b : Nat
  c : Nat
  d : Nat
  e : Nat
  f : Nat
  g : Nat
  h : Nat

def sha256Init : Sha256State :=
  ⟨1779033703, 3144134277, 1013904242, 2773480762,
   1359893119, 2600822924, 528734635, 1541459225⟩

/-- One compression round; `kw` is the round constant plus schedule word. -/
def sha256Round (st : Sha256State) (kw : Nat) : Sha256State :=
  let ch := (st.e &&& st.f) ^^^ ((4294967295 - st.e) &&& st.g)
  let maj := (st.a &&& st.b) ^^^ (st.a &&& st.c) ^^^ (st.b &&& st.c)
  let t1 := w32 (st.h + bigSigma1 st.e + ch + kw)
  let t2 := w32 (bigSigma0 st.a + maj)
  ⟨w32 (t1 + t2), st.a, st.b, st.c, w32 (st.d + t1), st.e, st.f, st.g⟩

/-- Big-endian 32-bit words from a byte list (the 16 words of a block). -/
def bytesToWords : List Nat → List Nat
  | b0 :: b1 :: b2 :: b3 :: rest =>
      (b0 * 16777216 + b1 * 65536 + b2 * 256 + b3) :: bytesToWords rest
  | _ => []

/-- Extend the 16 block words by `n` more schedule words. -/
def extendSchedule : Nat → List Nat → List Nat
  | 0, acc => acc
  | n + 1, acc =>
      extendSchedule n (acc ++ [w32 (smallSigma1 (acc.getD (acc.length - 2) 0) +
        acc.getD (acc.length - 7) 0 + smallSigma0 (acc.getD (acc.length - 15) 0) +
        acc.getD (acc.length - 16) 0)])

def compressBlock (st : Sha256State) (block : List Nat) : Sha256State :=
  let w := extendSchedule 48 (bytesToWords block)
  let kw := List.zipWith (fun k wi => w32 (k + wi)) sha256K w
  let t := kw.foldl sha256Round st
  ⟨w32 (st.a + t.a), w32 (st.b + t.b), w32 (st.c + t.c), w32 (st.d + t.d),
   w32 (st.e + t.e), w32 (st.f + t.f), w32 (st.g + t.g), w32 (st.h + t.h)⟩

/-- Big-endian bytes of a 64-bit value. -/
def be64 (n : Nat) : List Nat :=
  [n >>> 56 % 256, n >>> 48 % 256, n >>> 40 % 256, n >>> 32 % 256,
   n >>> 24 % 256, n >>> 16 % 256, n >>> 8 % 256, n % 256]

/-- Big-endian bytes of a 32-bit word. -/
def be32 (n : Nat) : List Nat :=
  [n >>> 24 % 256, n >>> 16 % 256, n >>> 8 % 256, n % 256]

/-- FIPS 180-4 padding: a 0x80 byte, zeros to 56 mod 64, then the
bit length as a big-endian 64-bit value. -/
def sha256Pad (msg : List Nat) : List Nat :=
  msg ++ 0x80 :: (List.replicate ((64 - (msg.length + 9) % 64) % 64) 0 ++ be64 (8 * msg.length))

/-- Split into 64-byte blocks (fuelled to stay structurally recursive). -/
def toBlocksAux : Nat → List Nat → List (List Nat)
  | 0, _ => []
  | _, [] => []
  | fuel + 1, l => l.take 64 :: toBlocksAux fuel (l.drop 64)

def toBlocks (l : List Nat) : List (List Nat) := toBlocksAux l.length l

/-- SHA-256 digest of a byte list, as 32 bytes. -/
def sha256 (msg : List Nat) : List Nat :=
  let st := (toBlocks (sha256Pad msg)).foldl compressBlock sha256Init
  be32 st.a ++ be32 st.b ++ be32 st.c ++ be32 st.d ++
    be32 st.e ++ be32 st.f ++ be32 st.g ++ be32 st.h

/-- Lower-case hex digit. -/
def hexChar (n : Nat) : Char := "0123456789abcdef".data.getD n (Char.ofNat 48)

/-- Two hex digits of a byte (Python `hexdigest` formatting). -/
def hexByte (b : Nat) : List Char := [hexChar (b / 16 % 16), hexChar (b % 16)]

def hexChars (bytes : List Nat) : List Char := bytes.flatMap hexByte

/-- Python `hashlib.sha256(data).hexdigest()`. -/
def sha256Hexdigest (msg : List Nat) : String := String.mk (hexChars (sha256 msg))

/-! Tables.  A PyArrow table is a named, schema-carrying columnar
collection; cells are modelled as JSON-like values. -/

/-- One column of a table: field name plus cell values. -/
structure Column where
  name : String
  values : List Json

/-- A PyArrow table (columnar). -/
structure Table where
  cols : List Column

/-- Python `len(table)`: the row count (all columns have equal length;
an empty column list has zero rows). -/
def Table.numRows (t : Table) : Nat :=
  match t.cols with
  | [] => 0
  | c :: _ => c.values.length

/-- The ordered column names (`[f.name for f in table.schema]`). -/
def Table.schemaNames (t : Table) : List String :=
  t.cols.map Column.name

mutual

/-- Canonical serialization of a JSON value (a canonical textual byte
form; models the deterministic serialized representation the external
libraries produce). -/
def Json.serialize : Json → String
  | .null => "null"
  | .bool true => "true"
  | .bool false => "false"
  | .num n => toString n
  | .str s => "\x22" ++ s ++ "\x22"
  | .arr xs => "[" ++ serializeArr xs ++ "]"
  | .obj fs => "\x7b" ++ serializeObj fs ++ "\x7d"

def serializeArr : List Json → String
  | [] => ""
  | [x] => Json.serialize x
  | x :: xs => Json.serialize x ++ "," ++ serializeArr xs

def serializeObj : List (String × Json) → String
  | [] => ""
  | [(k, v)] => "\x22" ++ k ++ "\x22:" ++ Json.serialize v
  | (k, v) :: fs => "\x22" ++ k ++ "\x22:" ++ Json.serialize v ++ "," ++ serializeObj fs

end

/-- Serialization of one column: its name and its cell values. -/
def Column.ser (c : Column) : String :=
  c.name ++ "=" ++ Json.serialize (Json.arr c.values)

/-- Serialized byte form of a table.  Models `pq.write_table(table,
buffer, compression='snappy')` from `_compute_table_hash`: the external
parquet writer, abstracted as a deterministic canonical byte encoding of
the ordered column set and cell values. -/
def serializeTable (t : Table) : List Nat :=
  utf8Encode (String.intercalate "|" (t.cols.map Column.ser))

/-- Embeds `_compute_table_hash` (src/subsets_utils/io.py lines 19-24):
serialize the table to bytes, SHA-256, hex digest, first 16 characters. -/
def compute_table_hash (t : Table) : String :=
  String.mk ((hexChars (sha256 (serializeTable t))).take 16)

/-! Process configuration, storage worlds, and observable events. -/

/-- Process-wide configuration.  Models the collaborators of io.py that
live in environment.py / r2.py (repository modules not present under
src/).  Modelled from the spec: the Storage Backend Selector is a pure
function of a boolean cloud-mode flag plus cloud connector-name/bucket
or a local root directory, resolved on every operation; `env` is the
process environment (`os.environ`); `now` stands for the
`datetime.now().isoformat()` timestamp of the current write. -/
structure Ctx where
  cloudMode : Bool
  connectorName : String
  bucketName : String
  dataDir : String
  env : List (String × String)
  now : String

/-- Modelled from the spec: `is_cloud_mode` (r2.py) reads the
boolean-style backend flag from process configuration. -/
def is_cloud_mode (ctx : Ctx) : Bool := ctx.cloudMode

/-- Modelled from the spec: `get_data_dir` (environment.py) returns the
local root directory. -/
def get_data_dir (ctx : Ctx) : String := ctx.dataDir

/-- Modelled from the spec: `get_connector_name` (r2.py) returns the
connector name prefixing every cloud key. -/
def get_connector_name (ctx : Ctx) : String := ctx.connectorName

/-- Embeds `_state_key` (io.py 162-163), the cloud object key
`{connector}/data/state/{asset}.json`. -/
def state_key (ctx : Ctx) (asset : String) : String :=
  get_connector_name ctx ++ "/data/state/" ++ asset ++ ".json"

/-- Resolved state-record location: `_state_key` in cloud mode, the
local path `{data_dir}/state/{asset}.json` otherwise (io.py 168-172,
186-188). -/
def state_location (ctx : Ctx) (asset : String) : String :=
  if is_cloud_mode ctx then state_key ctx asset
  else get_data_dir ctx ++ "/state/" ++ asset ++ ".json"

/-- A materialized Delta table: its schema (column names) and rows. -/
structure DeltaTable where
  schema : List String
  rows : List (List (String × Json))

/-- The mutable storage io.py reaches: state records and Delta tables,
addressed by resolved key/URI.  Each save is a single atomic put. -/
structure World where
  states : List (String × Json)
  deltas : List (String × DeltaTable)

/-- Observable side effects of a call: physical table writes (one per
`write_deltalake` call, with the `mode` and `schema_mode` passed —
`none` meaning the argument was omitted), merge executions, the
`debug.log_state_change(asset, old, new)` hook, and the
`debug.log_data_output` record. -/
inductive Event where
  | deltaWrite (uri : String) (mode : Option String) (schemaMode : Option String)
  | mergeAttempt (uri : String) (mergeKey : String)
  | stateChange (asset : String) (old : Json) (new : Json)
  | dataOutput (dataset : String) (rowCount : Nat) (mode : String)

/-- Embeds `load_state` (io.py 166-173): read the state JSON at the
resolved location, defaulting to the empty object when absent. -/
def load_state (ctx : Ctx) (states : List (String × Json)) (asset : String) : Json :=
  (states.lookup (state_location ctx asset)).getD (Json.obj [])

/-- Result of `save_state`: the returned location, the updated store,
and the `(asset, old_state, new_state)` triple passed to
`debug.log_state_change`. -/
structure SaveStateResult where
  location : String
  states : List (String × Json)
  logged : String × Json × Json

/-- Embeds `save_state` (io.py 176-191): re-read the old state, merge
the reserved `_metadata` block (`updated_at` timestamp and `RUN_ID`
environment value, default `'unknown'`) into the caller fields,
unconditionally overwrite the record, and pass old and new states to
the observability hook. -/
def save_state (ctx : Ctx) (states : List (String × Json)) (asset : String)
    (state_data : List (String × Json)) : SaveStateResult :=
  let old_state := load_state ctx states asset
  let meta := Json.obj [("updated_at", Json.str ctx.now),
    ("run_id", Json.str ((ctx.env.lookup "RUN_ID").getD "unknown"))]
  let merged := Json.obj (putKey state_data "_metadata" meta)
  let key := state_location ctx asset
  ⟨key, putKey states key merged, (asset, old_state, merged)⟩

/-- Embeds the `RUN_ID` prologue of src/main.py line 15:
`os.environ['RUN_ID'] = os.getenv('RUN_ID', 'local-run')`, executed at
process start before any connector code runs. -/
def main_env_setup (env : List (String × String)) : List (String × String) :=
  putKey env "RUN_ID" ((env.lookup "RUN_ID").getD "local-run")

/-- Embeds `_get_hash_state_key` (io.py 27-28). -/
def get_hash_state_key (dataset_name : String) : String :=
  "_hash_" ++ dataset_name

/-- Resolved Delta table location: `get_delta_table_uri` (r2.py, not in
src/ — Modelled from the spec: a backend-specific remote URI under the
bucket) in cloud mode, `{data_dir}/subsets/{name}` locally (io.py
60-65, 102-107). -/
def delta_table_location (ctx : Ctx) (name : String) : String :=
  if is_cloud_mode ctx then ctx.bucketName ++ "/" ++ name
  else get_data_dir ctx ++ "/subsets/" ++ name

/-- Failures of the external Delta engine. -/
inductive DeltaErr where
  | tableAlreadyExists (uri : String)
  | schemaMismatch (uri : String)
  | invalidWriteMode (m : String)

/-- Schema merge for `schema_mode="merge"`: existing columns plus new
ones in order. -/
def unionSchema (a b : List String) : List String :=
  a ++ b.filter (fun n => !(a.contains n))

/-- Row records of a table (one association list per row, in column
order). -/
def Table.toRows (t : Table) : List (List (String × Json)) :=
  (List.range t.numRows).map
    (fun i => t.cols.map (fun c => (c.name, c.values.getD i Json.null)))

/-- Models the external `write_deltalake` engine call (deltalake
library): `mode = none` is the library default `"error"`, which fails
when the table already exists; `"overwrite"` replaces table and schema;
`"append"` appends, merging the schema when `schema_mode="merge"` and
otherwise requiring an identical schema. -/
def write_deltalake (deltas : List (String × DeltaTable)) (uri : String) (data : Table)
    (mode : Option String) (schemaMode : Option String) :
    Except DeltaErr (List (String × DeltaTable)) :=
  match mode with
  | none =>
      match deltas.lookup uri with
      | some _ => .error (.tableAlreadyExists uri)
      | none => .ok (putKey deltas uri ⟨data.schemaNames, data.toRows⟩)
  | some "overwrite" => .ok (putKey deltas uri ⟨data.schemaNames, data.toRows⟩)
  | some "append" =>
      match deltas.lookup uri with
      | none => .ok (putKey deltas uri ⟨data.schemaNames, data.toRows⟩)
      | some dt =>
          if schemaMode = some "merge" then
            .ok (putKey deltas uri
              ⟨unionSchema dt.schema data.schemaNames, dt.rows ++ data.toRows⟩)
          else if data.schemaNames = dt.schema then
            .ok (putKey deltas uri ⟨dt.schema, dt.rows ++ data.toRows⟩)
          else .error (.schemaMismatch uri)
  | some m => .error (.invalidWriteMode m)

/-- Canonical comparison value of a row's merge-key cell. -/
def rowKeyVal (row : List (String × Json)) (k : String) : Option String :=
  (row.lookup k).map Json.serialize

/-- Models `DeltaTable.merge(source, "target.k = source.k")
.when_matched_update(all columns).when_not_matched_insert(all columns)
.execute()` (deltalake library): an upsert keyed on `mergeKey`; the
engine rejects a source whose column set differs from the target's
(e.g. a schema mismatch). -/
def mergeExec (uri : String) (dt : DeltaTable) (src : Table) (mergeKey : String) :
    Except DeltaErr DeltaTable :=
  if src.schemaNames = dt.schema then
    let srcRows := src.toRows
    let updated := dt.rows.map (fun tr =>
      match srcRows.find? (fun sr => rowKeyVal sr mergeKey == rowKeyVal tr mergeKey) with
      | some sr => sr
      | none => tr)
    let inserted := srcRows.filter (fun sr =>
      !(dt.rows.any (fun tr => rowKeyVal sr mergeKey == rowKeyVal tr mergeKey)))
    .ok ⟨dt.schema, updated ++ inserted⟩
  else .error (.schemaMismatch uri)

/-- Outcome of `sync_data`: the return value (table URI, or `none` for
the documented no-write result) or the propagated engine failure, the
storage after the call, and the emitted events. -/
structure SyncResult where
  result : Except DeltaErr (Option String)
  world : World
  events : List Event

/-- Embeds `sync_data` (io.py 31-77): skip on zero rows; compute the
table hash; compare against the digest recorded under
`_hash_{dataset}`; skip when equal; otherwise write the Delta table
with `schema_mode="overwrite"`, record the new digest, and log the
data-output record. -/
def sync_data (ctx : Ctx) (w : World) (data : Table) (dataset_name : String)
    (mode : String := "overwrite") : SyncResult :=
  if data.numRows = 0 then ⟨.ok none, w, []⟩
  else
    let new_hash := compute_table_hash data
    let state := load_state ctx w.states (get_hash_state_key dataset_name)
    let old_hash := state.getStr "hash"
    if old_hash = some new_hash then ⟨.ok none, w, []⟩
    else
      let table_uri := delta_table_location ctx dataset_name
      match write_deltalake w.deltas table_uri data (some mode) (some "overwrite") with
      | .error e => ⟨.error e, w, [.deltaWrite table_uri (some mode) (some "overwrite")]⟩
      | .ok deltas2 =>
          let sr := save_state ctx w.states (get_hash_state_key dataset_name)
            [("hash", Json.str new_hash)]
          ⟨.ok (some table_uri), ⟨sr.states, deltas2⟩,
            [.deltaWrite table_uri (some mode) (some "overwrite"),
             .stateChange sr.logged.1 sr.logged.2.1 sr.logged.2.2,
             .dataOutput dataset_name data.numRows mode]⟩

/-- Failures of `upload_data`: the two `ValueError`s raised by argument
validation, or a propagated engine failure. -/
inductive UploadErr where
  | invalidMode (m : String)
  | missingMergeKey
  | delta (e : DeltaErr)

/-- Outcome of `upload_data`: returned location (`""` for the zero-row
no-op) or failure, the storage after the call, and the emitted events. -/
structure UploadResult where
  result : Except UploadErr String
  world : World
  events : List Event

/-- Embeds `upload_data` (io.py 82-131): validate the mode and the
merge key before any storage access; zero-row no-op returning `""`;
merge mode opens the target and upserts, any exception from that step
being caught by the bare `except Exception` and answered by a fresh
`write_deltalake` with default (omitted) mode and schema mode; append /
overwrite write with `schema_mode` `"merge"` / `"overwrite"`. -/
def upload_data (ctx : Ctx) (w : World) (data : Table) (dataset_name : String)
    (metadata : Option Json := none) (mode : String := "append")
    (merge_key : Option String := none) : UploadResult :=
  if ¬(mode = "append" ∨ mode = "overwrite" ∨ mode = "merge") then
    ⟨.error (.invalidMode mode), w, []⟩
  else if mode = "merge" ∧ merge_key.getD "" = "" then
    ⟨.error .missingMergeKey, w, []⟩
  else if data.numRows = 0 then ⟨.ok "", w, []⟩
  else
    let table_uri := delta_table_location ctx dataset_name
    if mode = "merge" then
      let mk := merge_key.getD ""
      match w.deltas.lookup table_uri with
      | none =>
          match write_deltalake w.deltas table_uri data none none with
          | .ok d2 => ⟨.ok table_uri, ⟨w.states, d2⟩,
              [.deltaWrite table_uri none none,
               .dataOutput dataset_name data.numRows mode]⟩
          | .error e => ⟨.error (.delta e), w, [.deltaWrite table_uri none none]⟩
      | some dt =>
          match mergeExec table_uri dt data mk with
          | .ok dt2 => ⟨.ok table_uri, ⟨w.states, putKey w.deltas table_uri dt2⟩,
              [.mergeAttempt table_uri mk,
               .dataOutput dataset_name data.numRows mode]⟩
          | .error _ =>
              match write_deltalake w.deltas table_uri data none none with
              | .ok d2 => ⟨.ok table_uri, ⟨w.states, d2⟩,
                  [.mergeAttempt table_uri mk, .deltaWrite table_uri none none,
                   .dataOutput dataset_name data.numRows mode]⟩
              | .error e => ⟨.error (.delta e), w,
                  [.mergeAttempt table_uri mk, .deltaWrite table_uri none none]⟩
    else
      match write_deltalake w.deltas table_uri data (some mode)
          (some (if mode = "append" then "merge" else "overwrite")) with
      | .ok d2 => ⟨.ok table_uri, ⟨w.states, d2⟩,
          [.deltaWrite table_uri (some mode)
             (some (if mode = "append" then "merge" else "overwrite")),
           .dataOutput dataset_name data.numRows mode]⟩
      | .error e => ⟨.error (.delta e), w,
          [.deltaWrite table_uri (some mode)
             (some (if mode = "append" then "merge" else "overwrite"))]⟩

/-! Raw object cache. -/

/-- Embeds `_raw_key` (io.py 202-203) and `_raw_path` (196-199): the
resolved raw-cache location for the active backend. -/
def raw_location (ctx : Ctx) (asset_id ext : String) : String :=
  if is_cloud_mode ctx then
    get_connector_name ctx ++ "/data/raw/" ++ asset_id ++ "." ++ ext
  else get_data_dir ctx ++ "/raw/" ++ asset_id ++ "." ++ ext

/-- A raw payload: Python `str` or `bytes` (a tagged union, never
both). -/
inductive Payload where
  | text (s : String)
  | binary (bs : List Nat)

/-- Byte content written for a payload (`content.encode('utf-8')` /
`write_text` for text; bytes verbatim). -/
def Payload.toBytes : Payload → List Nat
  | .text s => utf8Encode s
  | .binary bs => bs

/-- Embeds `save_raw_file` (io.py 206-219): write the payload bytes at
the resolved key, overwriting unconditionally; returns the location. -/
def save_raw_file (ctx : Ctx) (raws : List (String × List Nat)) (content : Payload)
    (asset_id : String) (extension : String := "txt") :
    String × List (String × List Nat) :=
  let key := raw_location ctx asset_id extension
  (key, putKey raws key content.toBytes)

/-- The `FileNotFoundError` raised by the raw-cache readers. -/
inductive RawErr where
  | notFound (asset_id : String) (extension : String)

/-- Embeds `load_raw_file` (io.py 222-239): read the bytes at the
resolved key (NotFound when absent), decode UTF-8, and fall back to the
raw bytes on `UnicodeDecodeError`. -/
def load_raw_file (ctx : Ctx) (raws : List (String × List Nat)) (asset_id : String)
    (extension : String := "txt") : Except RawErr Payload :=
  match raws.lookup (raw_location ctx asset_id extension) with
  | none => .error (.notFound asset_id extension)
  | some bytes =>
      match utf8DecodeStr bytes with
      | some s => .ok (.text s)
      | none => .ok (.binary bytes)

/-- Stored content of a raw JSON asset.  `json.dumps` and `gzip` are
external inverse codec pairs; they are modelled at the value level,
with a `gzipped` wrapper marking compressed content. -/
inductive JsonBlob where
  | plain (j : Json)
  | gzipped (j : Json)

/-- Models `json.loads` on stored content: succeeds only on
uncompressed JSON text. -/
def jsonLoads : JsonBlob → Option Json
  | .plain j => some j
  | .gzipped _ => none

/-- Models `gzip` decompression followed by `json.load`: succeeds only
on gzip-compressed JSON content. -/
def gzipJsonLoads : JsonBlob → Option Json
  | .gzipped j => some j
  | .plain _ => none

/-- Embeds `save_raw_json` (io.py 242-260): store JSON content,
gzip-compressed when requested, at `{id}.json` / `{id}.json.gz`. -/
def save_raw_json (ctx : Ctx) (rawJsons : List (String × JsonBlob)) (data : Json)
    (asset_id : String) (compress : Bool := false) :
    String × List (String × JsonBlob) :=
  let ext := if compress then "json.gz" else "json"
  let key := raw_location ctx asset_id ext
  (key, putKey rawJsons key (if compress then JsonBlob.gzipped data else JsonBlob.plain data))

/-- Failures of `load_raw_json`: the NotFound raised when both keys are
absent, or a decode failure from `json.loads` / `gzip` on unexpected
content (propagated, not caught, in the source). -/
inductive RawJsonErr where
  | notFound (asset_id : String)
  | decodeFailed (key : String)

/-- Embeds `load_raw_json` (io.py 263-282): try the uncompressed
`{id}.json` key first, then the compressed `{id}.json.gz` key; raise
NotFound only when both are absent. -/
def load_raw_json (ctx : Ctx) (rawJsons : List (String × JsonBlob)) (asset_id : String) :
    Except RawJsonErr Json :=
  match rawJsons.lookup (raw_location ctx asset_id "json") with
  | some blob =>
      match jsonLoads blob with
      | some j => .ok j
      | none => .error (.decodeFailed (raw_location ctx asset_id "json"))
  | none =>
      match rawJsons.lookup (raw_location ctx asset_id "json.gz") with
      | some blob =>
          match gzipJsonLoads blob with
          | some j => .ok j
          | none => .error (.decodeFailed (raw_location ctx asset_id "json.gz"))
      | none => .error (.notFound asset_id)

/-! Event classifiers and concrete fixtures used by the theorems below. -/

/-- Event classifier: is this a physical `write_deltalake` call? -/
def Event.isDeltaWrite : Event → Bool
  | .deltaWrite _ _ _ => true
  | _ => false

/-- Event check: a table write carries this `schema_mode` (non-write
events pass vacuously). -/
def Event.schemaModeIs (sm : Option String) : Event → Bool
  | .deltaWrite _ _ s => s == sm
  | _ => true

/-- A local-mode configuration used for concrete scenarios. -/
def ctx0 : Ctx := ⟨false, "market-indicators", "bucket", "/data", [], "2026-10-12T00:00:00"⟩

/-- Empty storage. -/
def w0 : World := ⟨[], []⟩

/-- A one-row, two-column table. -/
def t1 : Table := ⟨[⟨"date", [Json.str "2024-01-01"]⟩, ⟨"value", [Json.num 3]⟩]⟩

/-- A zero-row table. -/
def tEmpty : Table := ⟨[⟨"date", []⟩]⟩

/-- Existing one-column target table for the merge scenario. -/
def dtA : DeltaTable := ⟨["a"], [[("a", Json.num 1)]]⟩

/-- World already holding dataset `ds` at its resolved local location. -/
def wA : World := ⟨[], [("/data/subsets/ds", dtA)]⟩

/-- Source table whose column set (`a`, `b`) differs from the target. -/
def tAB : Table := ⟨[⟨"a", [Json.num 1]⟩, ⟨"b", [Json.num 2]⟩]⟩

/-- Raw JSON store holding an uncompressed record. -/
def jstore1 : List (String × JsonBlob) := [("/data/raw/cfg.json", JsonBlob.plain (Json.num 1))]

/-- Raw JSON store holding only a compressed record. -/
def jstore2 : List (String × JsonBlob) := [("/data/raw/cfg.json.gz", JsonBlob.gzipped (Json.num 2))]

/-- State store already holding a prior record for asset `"asset"` at
its resolved local location. -/
def sPrev : List (String × Json) :=
  [("/data/state/asset.json", Json.obj [("old", Json.bool true)])]

/-! Helper lemmas. -/

theorem lookup_putKey_self {α : Type} (l : List (String × α)) (k : String) (v : α) :
    (putKey l k v).lookup k = some v := by
  induction l with
  | nil => simp [putKey, List.lookup]
  | cons p rest ih =>
    obtain ⟨k0, v0⟩ := p
    by_cases h : k0 = k
    · subst h
      simp [putKey, List.lookup]
    · have hne : (k == k0) = false := by
        simp only [beq_eq_false_iff_ne]
        exact fun e => h e.symm
      simp [putKey, h, List.lookup, hne, ih]

theorem lookup_putKey_other {α : Type} (l : List (String × α)) (k k2 : String) (v : α)
    (hne : k2 ≠ k) : (putKey l k v).lookup k2 = l.lookup k2 := by
  have hb : (k2 == k) = false := by simpa [beq_eq_false_iff_ne] using hne
  induction l with
  | nil => simp [putKey, List.lookup, hb]
  | cons p rest ih =>
    obtain ⟨k0, v0⟩ := p
    by_cases h : k0 = k
    · subst h
      simp [putKey, List.lookup, hb]
    · simp [putKey, h, List.lookup, ih]

/-! Round-trip of the UTF-8 codec: Python guarantees
`s.encode('utf-8').decode('utf-8') == s`; the lemmas below establish the
same for the model, char by char. -/


theorem utf8EncodeChar_ne_nil (c : Char) : utf8EncodeChar c ≠ [] := by
  by_cases h1 : c.toNat < 0x80 <;> by_cases h2 : c.toNat < 0x800 <;>
    by_cases h3 : c.toNat < 0x10000 <;>
    simp [utf8EncodeChar, h1, h2, h3]

set_option maxRecDepth 8000 in
theorem utf8DecodeOne_encodeChar (c : Char) (tail : List Nat) :
    utf8DecodeOne (utf8EncodeChar c ++ tail) = some (c.toNat, tail) := by
  have hv : Nat.isValidChar c.toNat := c.valid
  by_cases h1 : c.toNat < 0x80
  · rw [show utf8EncodeChar c = [c.toNat] from by simp [utf8EncodeChar, h1]]
    simp [utf8DecodeOne, h1]
  · by_cases h2 : c.toNat < 0x800
    · rw [show utf8EncodeChar c = [0xC0 + c.toNat / 64, 0x80 + c.toNat % 64] from by
        simp [utf8EncodeChar, h1, h2]]
      rw [List.cons_append, List.cons_append, List.nil_append]
      simp only [utf8DecodeOne]
      rw [if_neg (by omega), if_neg (by omega), if_pos (by omega)]
      simp only [utf8Dec2]
      rw [if_pos (by simp only [utf8Cont, Bool.and_eq_true, decide_eq_true_eq]; omega)]
      rw [if_neg (by omega)]
      congr 2
      omega
    · by_cases h3 : c.toNat < 0x10000
      · have hs : c.toNat < 0xD800 ∨ 0xDFFF < c.toNat := by
          rcases hv with h | ⟨h, _⟩
          · exact Or.inl h
          · exact Or.inr h
        rw [show utf8EncodeChar c =
            [0xE0 + c.toNat / 4096, 0x80 + c.toNat / 64 % 64, 0x80 + c.toNat % 64] from by
          simp [utf8EncodeChar, h1, h2, h3]]
        rw [List.cons_append, List.cons_append, List.cons_append, List.nil_append]
        simp only [utf8DecodeOne]
        rw [if_neg (by omega), if_neg (by omega), if_neg (by omega), if_pos (by omega)]
        simp only [utf8Dec3]
        rw [if_pos (by simp only [utf8Cont, Bool.and_eq_true, decide_eq_true_eq]; omega)]
        rw [if_neg (by omega), if_neg (by omega)]
        congr 2
        omega
      · have h4 : c.toNat < 0x110000 := by
          rcases hv with h | ⟨_, h⟩
          · omega
          · exact h
        rw [show utf8EncodeChar c =
            [0xF0 + c.toNat / 262144, 0x80 + c.toNat / 4096 % 64,
             0x80 + c.toNat / 64 % 64, 0x80 + c.toNat % 64] from by
          simp [utf8EncodeChar, h1, h2, h3]]
        rw [List.cons_append, List.cons_append, List.cons_append, List.cons_append,
          List.nil_append]
        simp only [utf8DecodeOne]
        rw [if_neg (by omega), if_neg (by omega), if_neg (by omega), if_neg (by omega)]
        simp only [utf8Dec4]
        rw [if_pos (by simp only [utf8Cont, Bool.and_eq_true, decide_eq_true_eq]; omega)]
        rw [if_neg (by omega), if_pos (by omega)]
        congr 2
        omega

theorem utf8Dec2_shorter (b c : Nat) (l rest : List Nat)
    (h : utf8Dec2 b l = some (c, rest)) : rest.length < l.length := by
  cases l with
  | nil => simp [utf8Dec2] at h
  | cons b1 l1 =>
    simp only [utf8Dec2] at h
    split at h
    · split at h
      · simp at h
      · cases h
        simp
    · simp at h

theorem utf8Dec3_shorter (b c : Nat) (l rest : List Nat)
    (h : utf8Dec3 b l = some (c, rest)) : rest.length < l.length := by
  match l with
  | [] => simp [utf8Dec3] at h
  | [b1] => simp [utf8Dec3] at h
  | b1 :: b2 :: l2 =>
    simp only [utf8Dec3] at h
    split at h
    · split at h
      · simp at h
      · split at h
        · simp at h
        · cases h
          simp
          omega
    · simp at h

theorem utf8Dec4_shorter (b c : Nat) (l rest : List Nat)
    (h : utf8Dec4 b l = some (c, rest)) : rest.length < l.length := by
  match l with
  | [] => simp [utf8Dec4] at h
  | [b1] => simp [utf8Dec4] at h
  | [b1, b2] => simp [utf8Dec4] at h
  | b1 :: b2 :: b3 :: l3 =>
    simp only [utf8Dec4] at h
    split at h
    · split at h
      · simp at h
      · split at h
        · cases h
          simp
          omega
        · simp at h
    · simp at h

theorem utf8DecodeOne_shorter (l : List Nat) (c : Nat) (rest : List Nat)
    (h : utf8DecodeOne l = some (c, rest)) : rest.length < l.length := by
  cases l with
  | nil => simp [utf8DecodeOne] at h
  | cons b l1 =>
    simp only [utf8DecodeOne] at h
    split at h
    · cases h
      simp
    · split at h
      · simp at h
      · split at h
        · have := utf8Dec2_shorter b c l1 rest h
          simp
          omega
        · split at h
          · have := utf8Dec3_shorter b c l1 rest h
            simp
            omega
          · have := utf8Dec4_shorter b c l1 rest h
            simp
            omega

theorem utf8DecodeAux_fuel (f1 : Nat) : ∀ (f2 : Nat) (l : List Nat),
    l.length ≤ f1 → l.length ≤ f2 → utf8DecodeAux f1 l = utf8DecodeAux f2 l := by
  induction f1 with
  | zero =>
    intro f2 l h1 h2
    cases l with
    | nil => cases f2 <;> simp [utf8DecodeAux]
    | cons b rest => simp at h1
  | succ g ih =>
    intro f2 l h1 h2
    cases l with
    | nil => cases f2 <;> simp [utf8DecodeAux]
    | cons b rest =>
      cases f2 with
      | zero => simp at h2
      | succ g2 =>
        simp only [utf8DecodeAux]
        cases hdec : utf8DecodeOne (b :: rest) with
        | none => rfl
        | some p =>
          obtain ⟨c, rest2⟩ := p
          have hlen := utf8DecodeOne_shorter _ _ _ hdec
          simp only [List.length_cons] at h1 h2 hlen
          show (utf8DecodeAux g rest2).map (fun cs => c :: cs) =
            (utf8DecodeAux g2 rest2).map (fun cs => c :: cs)
          rw [ih g2 rest2 (by omega) (by omega)]

theorem utf8DecodeCps_cons_encodeChar (c : Char) (tail : List Nat) :
    utf8DecodeCps (utf8EncodeChar c ++ tail) =
      (utf8DecodeCps tail).map (fun cs => c.toNat :: cs) := by
  have hne := utf8EncodeChar_ne_nil c
  obtain ⟨b, bs, henc⟩ : ∃ b bs, utf8EncodeChar c = b :: bs := by
    cases hE : utf8EncodeChar c with
    | nil => exact absurd hE hne
    | cons b bs => exact ⟨b, bs, rfl⟩
  have hdec : utf8DecodeOne (b :: (bs ++ tail)) = some (c.toNat, tail) := by
    rw [← List.cons_append, ← henc]
    exact utf8DecodeOne_encodeChar c tail
  unfold utf8DecodeCps
  rw [henc, List.cons_append, List.length_cons]
  simp only [utf8DecodeAux, hdec]
  rw [utf8DecodeAux_fuel _ tail.length tail (by simp [List.length_append]) (le_refl _)]

theorem utf8DecodeCps_encodeList (cs : List Char) :
    utf8DecodeCps (cs.flatMap utf8EncodeChar) = some (cs.map Char.toNat) := by
  induction cs with
  | nil => rfl
  | cons c cs ih =>
    rw [List.flatMap_cons, utf8DecodeCps_cons_encodeChar, ih]
    rfl

theorem utf8DecodeStr_utf8Encode (s : String) : utf8DecodeStr (utf8Encode s) = some s := by
  unfold utf8DecodeStr utf8Encode
  rw [utf8DecodeCps_encodeList]
  show some (String.mk ((s.data.map Char.toNat).map Char.ofNat)) = some s
  rw [List.map_map]
  have he : Char.ofNat ∘ Char.toNat = id := funext Char.ofNat_toNat
  rw [he, List.map_id]

theorem hexChars_length (bs : List Nat) : (hexChars bs).length = 2 * bs.length := by
  induction bs with
  | nil => rfl
  | cons b bs ih =>
    simp only [hexChars, List.flatMap_cons] at *
    simp [hexByte, ih]
    omega

theorem sha256_length (m : List Nat) : (sha256 m).length = 32 := by
  simp [sha256, be32]

theorem sha256_bytes_lt (m : List Nat) :
    (sha256 m).all (fun b => decide (b < 256)) = true := by
  simp [sha256, be32, List.all_append, decide_eq_true_eq]
  omega

theorem hexChar_mem_hexDigits (n : Nat) : hexChar n ∈ "0123456789abcdef".data := by
  unfold hexChar
  by_cases h : n < 16
  · interval_cases n <;> decide
  · rw [List.getD_eq_default]
    · decide
    · simpa using h

theorem hexChars_all_mem (bs : List Nat) :
    (hexChars bs).all (fun c => decide (c ∈ "0123456789abcdef".data)) = true := by
  rw [List.all_eq_true]
  intro c hc
  obtain ⟨b, _, hcb⟩ := List.mem_flatMap.1 hc
  simp only [hexByte, List.mem_cons, List.not_mem_nil, or_false] at hcb
  rcases hcb with rfl | rfl <;> simpa using hexChar_mem_hexDigits _

theorem all_take {α : Type} (p : α → Bool) (l : List α) (k : Nat)
    (h : l.all p = true) : (l.take k).all p = true := by
  rw [List.all_eq_true] at *
  intro x hx
  exact h x (List.mem_of_mem_take hx)

theorem getStr_hash_after_save (ctx : Ctx) (states : List (String × Json))
    (asset : String) (h : String) :
    (load_state ctx (save_state ctx states asset [("hash", Json.str h)]).states asset).getStr
      "hash" = some h := by
  simp [save_state, load_state, lookup_putKey_self, Json.getStr, putKey, List.lookup]

/-! The claims. -/

/-- C1.  Skip invariant of `sync_data`: for a non-empty table, after a
completed `sync_data` call, a second call with the identical table and
no intervening writes computes a digest equal to the stored one and
returns the no-write sentinel (`none`) with no events, leaving the
whole storage — in particular the recorded digest for key
`"_hash_" + n` — unchanged; at most one physical table write happens
across the two calls. -/
theorem claim_C1_sync_skip (ctx : Ctx) (w : World) (t : Table) (n mode : String)
    (hrows : 0 < t.numRows)
    (hok : (sync_data ctx w t n mode).result.isOk = true) :
    sync_data ctx (sync_data ctx w t n mode).world t n mode =
      ⟨.ok none, (sync_data ctx w t n mode).world, []⟩ ∧
    ((sync_data ctx w t n mode).events.filter Event.isDeltaWrite).length ≤ 1 ∧
    load_state ctx (sync_data ctx (sync_data ctx w t n mode).world t n mode).world.states
        (get_hash_state_key n) =
      load_state ctx (sync_data ctx w t n mode).world.states (get_hash_state_key n) := by
  have h0 : ¬ t.numRows = 0 := by omega
  by_cases hskip : (load_state ctx w.states (get_hash_state_key n)).getStr "hash" =
      some (compute_table_hash t)
  · have h1 : sync_data ctx w t n mode = ⟨.ok none, w, []⟩ := by
      simp [sync_data, h0, hskip]
    have h2 : sync_data ctx (sync_data ctx w t n mode).world t n mode = ⟨.ok none, w, []⟩ := by
      rw [h1]
      exact h1
    refine ⟨?_, ?_, ?_⟩
    · rw [h2, h1]
    · rw [h1]
      simp
    · rw [h2, h1]
  · cases hw : write_deltalake w.deltas (delta_table_location ctx n) t (some mode)
        (some "overwrite") with
    | error e =>
      exfalso
      have hres : (sync_data ctx w t n mode).result = .error e := by
        simp [sync_data, h0, hskip, hw]
      rw [hres] at hok
      simp [Except.isOk, Except.toBool] at hok
    | ok deltas2 =>
      have h1 : sync_data ctx w t n mode =
          ⟨.ok (some (delta_table_location ctx n)),
           ⟨(save_state ctx w.states (get_hash_state_key n)
               [("hash", Json.str (compute_table_hash t))]).states, deltas2⟩,
           [.deltaWrite (delta_table_location ctx n) (some mode) (some "overwrite"),
            .stateChange (save_state ctx w.states (get_hash_state_key n)
                [("hash", Json.str (compute_table_hash t))]).logged.1
              (save_state ctx w.states (get_hash_state_key n)
                [("hash", Json.str (compute_table_hash t))]).logged.2.1
              (save_state ctx w.states (get_hash_state_key n)
                [("hash", Json.str (compute_table_hash t))]).logged.2.2,
            .dataOutput n t.numRows mode]⟩ := by
        simp [sync_data, h0, hskip, hw]
      have h2 : sync_data ctx (sync_data ctx w t n mode).world t n mode =
          ⟨.ok none, (sync_data ctx w t n mode).world, []⟩ := by
        rw [h1]
        simp [sync_data, h0, getStr_hash_after_save]
      refine ⟨h2, ?_, ?_⟩
      · rw [h1]
        simp [Event.isDeltaWrite]
      · rw [h2]

/-- C1 witness: the scenario at a concrete table and empty storage. -/
theorem claim_C1_witness :
    0 < t1.numRows ∧ (sync_data ctx0 w0 t1 "prices" "overwrite").result.isOk = true ∧
    (sync_data ctx0 (sync_data ctx0 w0 t1 "prices" "overwrite").world t1 "prices" "overwrite" =
        ⟨.ok none, (sync_data ctx0 w0 t1 "prices" "overwrite").world, []⟩ ∧
      ((sync_data ctx0 w0 t1 "prices" "overwrite").events.filter Event.isDeltaWrite).length ≤ 1 ∧
      load_state ctx0 (sync_data ctx0 (sync_data ctx0 w0 t1 "prices" "overwrite").world t1
          "prices" "overwrite").world.states (get_hash_state_key "prices") =
        load_state ctx0 (sync_data ctx0 w0 t1 "prices" "overwrite").world.states
          (get_hash_state_key "prices")) :=
  ⟨by decide, by rfl, claim_C1_sync_skip ctx0 w0 t1 "prices" "overwrite" (by decide) (by rfl)⟩

/-- C2.  The code does NOT restrict the merge fallback to "target table
absent": at a concrete input where the target table exists and the
merge step fails with a schema mismatch, the bare `except Exception`
swallows that failure and still runs the create-fresh
`write_deltalake`, whose own "table already exists" failure is what the
caller sees — the schema-mismatch error never propagates.  This
contradicts the claim (and the spec flags exactly this breadth as
likely unintended), so the code, not the claim, is at fault. -/
theorem claim_C2_broad_fallback :
    mergeExec "/data/subsets/ds" dtA tAB "a" = .error (.schemaMismatch "/data/subsets/ds") ∧
    (upload_data ctx0 wA tAB "ds" none "merge" (some "a")).events =
      [.mergeAttempt "/data/subsets/ds" "a", .deltaWrite "/data/subsets/ds" none none] ∧
    (upload_data ctx0 wA tAB "ds" none "merge" (some "a")).result =
      .error (.delta (.tableAlreadyExists "/data/subsets/ds")) := by
  refine ⟨?_, ?_, ?_⟩ <;> rfl

/-- C3.  `upload_data` validates its arguments before any storage I/O:
an unknown mode raises `ValueError` (InvalidArgument) and `merge`
without a merge key (absent or empty) likewise, in both cases with the
storage untouched and no events emitted. -/
theorem claim_C3_mode_validation (ctx : Ctx) (w : World) (t : Table) (n : String)
    (md : Option Json) (mode : String) (mk : Option String) :
    (¬(mode = "append" ∨ mode = "overwrite" ∨ mode = "merge") →
      upload_data ctx w t n md mode mk = ⟨.error (.invalidMode mode), w, []⟩) ∧
    (mk.getD "" = "" →
      upload_data ctx w t n md "merge" mk = ⟨.error .missingMergeKey, w, []⟩) := by
  constructor
  · intro h
    simp [upload_data, h]
  · intro h
    simp [upload_data, h]

/-- C3 witness: mode `"bogus"` and a missing merge key, concretely. -/
theorem claim_C3_witness :
    upload_data ctx0 w0 t1 "prices" none "bogus" none = ⟨.error (.invalidMode "bogus"), w0, []⟩ ∧
    upload_data ctx0 w0 t1 "prices" none "merge" none = ⟨.error .missingMergeKey, w0, []⟩ :=
  ⟨(claim_C3_mode_validation ctx0 w0 t1 "prices" none "bogus" none).1 (by decide),
   (claim_C3_mode_validation ctx0 w0 t1 "prices" none "merge" none).2 (by decide)⟩

/-- C4 counterexample: the byte payload `[104, 105]` is valid UTF-8, so
`load_raw_file` after `save_raw_file` returns the decoded text `"hi"`,
not a value equal to the binary payload — the round trip fails for
binary payloads that happen to decode. -/
theorem claim_C4_counterexample :
    load_raw_file ctx0 (save_raw_file ctx0 [] (Payload.binary [104, 105]) "blob" "bin").2
        "blob" "bin" = .ok (Payload.text "hi") ∧
    Payload.text "hi" ≠ Payload.binary [104, 105] := by
  constructor
  · rfl
  · intro h
    cases h

/-- C4 amended.  Loading after saving round-trips for every text
payload and for every binary payload that is not valid UTF-8; a binary
payload that is valid UTF-8 is returned as the equal decoded text
string instead of as bytes (the decode-then-fallback behavior of
`load_raw_file`). -/
theorem claim_C4_amended_roundtrip (ctx : Ctx) (raws : List (String × List Nat))
    (p : Payload) (asset_id ext : String) :
    load_raw_file ctx (save_raw_file ctx raws p asset_id ext).2 asset_id ext =
      .ok (match p with
           | .text s => Payload.text s
           | .binary bs =>
               match utf8DecodeStr bs with
               | some s => Payload.text s
               | none => Payload.binary bs) := by
  cases p with
  | text s =>
    simp [load_raw_file, save_raw_file, Payload.toBytes, lookup_putKey_self,
      utf8DecodeStr_utf8Encode]
  | binary bs =>
    simp only [load_raw_file, save_raw_file, Payload.toBytes, lookup_putKey_self]
    cases h : utf8DecodeStr bs with
    | none => simp [h]
    | some s => simp [h]

/-- C5.  After the `main.py` prologue runs on an environment with no
run identifier, `RUN_ID` is `"local-run"`, and every `save_state` write
embeds a `_metadata` block carrying exactly that identifier (and the
write timestamp) into the stored record. -/
theorem claim_C5_run_id_default (cloud : Bool) (cn bn dd nowStamp : String)
    (env0 : List (String × String)) (states : List (String × Json))
    (asset : String) (value : List (String × Json))
    (henv : env0.lookup "RUN_ID" = none) :
    (save_state ⟨cloud, cn, bn, dd, main_env_setup env0, nowStamp⟩ states asset value).states.lookup
        (state_location ⟨cloud, cn, bn, dd, main_env_setup env0, nowStamp⟩ asset) =
      some ((save_state ⟨cloud, cn, bn, dd, main_env_setup env0, nowStamp⟩ states asset
        value).logged.2.2) ∧
    ((save_state ⟨cloud, cn, bn, dd, main_env_setup env0, nowStamp⟩ states asset
        value).logged.2.2).get "_metadata" =
      some (Json.obj [("updated_at", Json.str nowStamp), ("run_id", Json.str "local-run")]) := by
  constructor
  · simp [save_state, lookup_putKey_self]
  · have hrun : (main_env_setup env0).lookup "RUN_ID" = some "local-run" := by
      simp [main_env_setup, lookup_putKey_self, henv]
    simp [save_state, Json.get, hrun, lookup_putKey_self]

/-- C5 witness: an initially empty environment, concretely. -/
theorem claim_C5_witness :
    (save_state ⟨false, "market-indicators", "bucket", "/data", main_env_setup [], "t0"⟩
        [] "asset" [("hash", Json.str "h")]).states.lookup
        (state_location ⟨false, "market-indicators", "bucket", "/data", main_env_setup [], "t0"⟩
          "asset") =
      some ((save_state ⟨false, "market-indicators", "bucket", "/data", main_env_setup [], "t0"⟩
        [] "asset" [("hash", Json.str "h")]).logged.2.2) ∧
    ((save_state ⟨false, "market-indicators", "bucket", "/data", main_env_setup [], "t0"⟩
        [] "asset" [("hash", Json.str "h")]).logged.2.2).get "_metadata" =
      some (Json.obj [("updated_at", Json.str "t0"), ("run_id", Json.str "local-run")]) :=
  claim_C5_run_id_default false "market-indicators" "bucket" "/data" "t0" [] [] "asset"
    [("hash", Json.str "h")] rfl

/-- C6.  A zero-row table is a documented no-op for both entry points:
`sync_data` returns the no-write sentinel and `upload_data` (under a
valid mode, with a merge key when merging) returns the empty location
marker, neither touching storage nor emitting events. -/
theorem claim_C6_empty_table_noop (ctx : Ctx) (w : World) (t : Table) (n mode : String)
    (md : Option Json) (mk : Option String)
    (h0 : t.numRows = 0)
    (hmode : mode = "append" ∨ mode = "overwrite" ∨ mode = "merge")
    (hmk : mode = "merge" → mk.getD "" ≠ "") :
    sync_data ctx w t n mode = ⟨.ok none, w, []⟩ ∧
    upload_data ctx w t n md mode mk = ⟨.ok "", w, []⟩ := by
  constructor
  · simp [sync_data, h0]
  · have h1 : ¬¬(mode = "append" ∨ mode = "overwrite" ∨ mode = "merge") := not_not_intro hmode
    have h2 : ¬(mode = "merge" ∧ mk.getD "" = "") := by
      rintro ⟨hm, hk⟩
      exact hmk hm hk
    simp [upload_data, h1, h2, h0]

/-- C6 witness: the zero-row table, concretely. -/
theorem claim_C6_witness :
    sync_data ctx0 w0 tEmpty "prices" "overwrite" = ⟨.ok none, w0, []⟩ ∧
    upload_data ctx0 w0 tEmpty "prices" none "overwrite" none = ⟨.ok "", w0, []⟩ :=
  claim_C6_empty_table_noop ctx0 w0 tEmpty "prices" "overwrite" none none (by decide)
    (Or.inr (Or.inl rfl)) (by simp)

/-- C7.  The digest is the first 16 hex characters of the 256-bit
SHA-256 digest of the table's canonical serialized byte form: the full
digest is 32 bytes (each below 256) rendering as 64 hex characters, the
table hash is its 16-character prefix made of hex digits only, and the
hash is a pure function of the table (deterministic across calls). -/
theorem claim_C7_digest_shape (t : Table) :
    compute_table_hash t = String.mk ((hexChars (sha256 (serializeTable t))).take 16) ∧
    (sha256 (serializeTable t)).length = 32 ∧
    ((sha256 (serializeTable t)).all (fun b => decide (b < 256)) = true) ∧
    (sha256Hexdigest (serializeTable t)).length = 64 ∧
    (compute_table_hash t).length = 16 ∧
    ((compute_table_hash t).data.all
      (fun c => decide (c ∈ "0123456789abcdef".data)) = true) ∧
    compute_table_hash t = compute_table_hash t := by
  refine ⟨rfl, sha256_length _, sha256_bytes_lt _, ?_, ?_, ?_, rfl⟩
  · show (String.mk (hexChars (sha256 (serializeTable t)))).length = 64
    simp [String.length, hexChars_length, sha256_length]
  · show (String.mk ((hexChars (sha256 (serializeTable t))).take 16)).length = 16
    simp [String.length, List.length_take, hexChars_length, sha256_length]
  · show ((hexChars (sha256 (serializeTable t))).take 16).all _ = true
    exact all_take _ _ _ (hexChars_all_mem _)

/-- C8.  State store contract: `load_state` yields the empty object
when no record exists; `save_state` re-reads the old record and passes
`(asset, old, new)` to the observability hook, where the new record is
the caller value with the reserved `_metadata` block merged in; and the
write unconditionally overwrites the record at the resolved key. -/
theorem claim_C8_state_store_contract (ctx : Ctx) (states : List (String × Json))
    (asset : String) (value : List (String × Json)) :
    (states.lookup (state_location ctx asset) = none →
      load_state ctx states asset = Json.obj []) ∧
    (save_state ctx states asset value).logged =
      (asset, load_state ctx states asset,
        Json.obj (putKey value "_metadata"
          (Json.obj [("updated_at", Json.str ctx.now),
            ("run_id", Json.str ((ctx.env.lookup "RUN_ID").getD "unknown"))]))) ∧
    (save_state ctx states asset value).states.lookup (state_location ctx asset) =
      some (Json.obj (putKey value "_metadata"
        (Json.obj [("updated_at", Json.str ctx.now),
          ("run_id", Json.str ((ctx.env.lookup "RUN_ID").getD "unknown"))]))) := by
  refine ⟨?_, ?_, ?_⟩
  · intro habs
    simp [load_state, habs]
  · simp [save_state]
  · simp [save_state, lookup_putKey_self]

/-- C8 witness: the load half at an empty store, and the save half at a
store already holding a prior record for the asset — the prior record is
what the hook receives as the old state, and the write replaces it. -/
theorem claim_C8_witness :
    load_state ctx0 [] "asset" = Json.obj [] ∧
    (save_state ctx0 sPrev "asset" [("k", Json.num 7)]).logged =
      ("asset", Json.obj [("old", Json.bool true)],
        Json.obj [("k", Json.num 7),
          ("_metadata", Json.obj [("updated_at", Json.str "2026-10-12T00:00:00"),
            ("run_id", Json.str "unknown")])]) ∧
    (save_state ctx0 sPrev "asset" [("k", Json.num 7)]).states.lookup
        (state_location ctx0 "asset") =
      some (Json.obj [("k", Json.num 7),
        ("_metadata", Json.obj [("updated_at", Json.str "2026-10-12T00:00:00"),
          ("run_id", Json.str "unknown")])]) :=
  ⟨(claim_C8_state_store_contract ctx0 [] "asset" []).1 rfl,
   (claim_C8_state_store_contract ctx0 sPrev "asset" [("k", Json.num 7)]).2.1,
   (claim_C8_state_store_contract ctx0 sPrev "asset" [("k", Json.num 7)]).2.2⟩

/-- C9.  `load_raw_json` tries the uncompressed `{id}.json` key first
and returns its decoded value when present; only when it is absent does
it read the compressed `{id}.json.gz` key; NotFound is raised exactly
when both keys are absent. -/
theorem claim_C9_json_fallback (ctx : Ctx) (rawJsons : List (String × JsonBlob))
    (asset_id : String) :
    (∀ j, rawJsons.lookup (raw_location ctx asset_id "json") = some (JsonBlob.plain j) →
      load_raw_json ctx rawJsons asset_id = .ok j) ∧
    (∀ j, rawJsons.lookup (raw_location ctx asset_id "json") = none →
      rawJsons.lookup (raw_location ctx asset_id "json.gz") = some (JsonBlob.gzipped j) →
      load_raw_json ctx rawJsons asset_id = .ok j) ∧
    (rawJsons.lookup (raw_location ctx asset_id "json") = none →
      rawJsons.lookup (raw_location ctx asset_id "json.gz") = none →
      load_raw_json ctx rawJsons asset_id = .error (.notFound asset_id)) := by
  refine ⟨?_, ?_, ?_⟩
  · intro j h
    simp [load_raw_json, h, jsonLoads]
  · intro j h1 h2
    simp [load_raw_json, h1, h2, gzipJsonLoads]
  · intro h1 h2
    simp [load_raw_json, h1, h2]

/-- C9 witness: stores with only the uncompressed key, only the
compressed key, and neither, concretely. -/
theorem claim_C9_witness :
    load_raw_json ctx0 jstore1 "cfg" = .ok (Json.num 1) ∧
    load_raw_json ctx0 jstore2 "cfg" = .ok (Json.num 2) ∧
    load_raw_json ctx0 [] "cfg" = .error (.notFound "cfg") :=
  ⟨(claim_C9_json_fallback ctx0 jstore1 "cfg").1 (Json.num 1) rfl,
   (claim_C9_json_fallback ctx0 jstore2 "cfg").2.1 (Json.num 2) rfl rfl,
   (claim_C9_json_fallback ctx0 [] "cfg").2.2 rfl rfl⟩

/-- C10.  Whatever mode is requested, every physical table write that
`sync_data` performs passes `schema_mode="overwrite"`; `upload_data` in
append mode instead requests `schema_mode="merge"` on its write. -/
theorem claim_C10_schema_mode (ctx : Ctx) (w : World) (t : Table)
    (n mode : String) (md : Option Json) (mk : Option String) :
    ((sync_data ctx w t n mode).events.all (Event.schemaModeIs (some "overwrite")) = true) ∧
    ((upload_data ctx w t n md "append" mk).events.all
      (Event.schemaModeIs (some "merge")) = true) := by
  constructor
  · by_cases h0 : t.numRows = 0
    · simp [sync_data, h0]
    · by_cases hskip : (load_state ctx w.states (get_hash_state_key n)).getStr "hash" =
          some (compute_table_hash t)
      · simp [sync_data, h0, hskip]
      · simp only [sync_data, h0, hskip, if_neg, if_false, ite_false]
        split <;> simp [Event.schemaModeIs]
  · unfold upload_data
    repeat' split
    all_goals try simp_all [Event.schemaModeIs]
    all_goals (split <;> simp_all [Event.schemaModeIs])

end MarketIndicators
